import Mathlib

/-!
# Verification of the MERCHANT_RISK_AI scoring pipeline

A shallow embedding of the scoring-and-analytics pipeline
(`src/core/governance.py`, `src/core/schema.py`, `src/risk/rule_engine.py`,
`src/risk/risk_engine.py`, `src/risk/risk_metrics.py`, `src/ai/agent.py`)
together with proofs of the spec's claims about it.

Modelling conventions:
* Numeric cell values (amounts, labels, scores, probabilities) are rationals
  (`ℚ`); the Python floats are modelled exactly at the granularity the claims
  test (threshold comparisons, weighted sums, means).
* A pandas `DataFrame` is modelled per component at the granularity the
  component reads it: the governance layer sees a generic column-named frame
  (cells may be missing = `NaN`), the rule engine and the metrics layer see
  typed row records, with a table-level flag for presence of the optional
  `transaction_time` column.
* Timestamps are rational numbers of seconds since the Unix epoch;
  `hour-of-day` and `calendar date` are derived arithmetically, matching
  pandas `.dt.hour` / `.dt.date` on post-epoch instants.
-/

namespace MerchantRisk

/-- `Series.clip(0.0, 1.0)`: clamp a value into `[0, 1]`. -/
def clip01 (x : ℚ) : ℚ := min 1 (max 0 x)

/-- `pandas.round(n)`: rounding to `n` decimal places (tie behaviour at
half-ulp differs from IEEE half-even but no claim exercises ties). -/
def roundTo (n : ℕ) (q : ℚ) : ℚ := (round (q * 10 ^ n) : ℤ) / 10 ^ n

/-- Mean of a list of rationals (`Series.mean()`); `0` on the empty list,
which no claim exercises. -/
def listMean (l : List ℚ) : ℚ := l.sum / l.length

/-- `.dt.hour` of a timestamp given in seconds since the epoch. -/
def hourOf (t : ℚ) : ℤ := (⌊t / 3600⌋ : ℤ) % 24

/-- `.dt.date` of a timestamp given in seconds since the epoch, as a count
of calendar days. -/
def dateOf (t : ℚ) : ℤ := ⌊t / 86400⌋

namespace RuleEngine

/-- Thresholds from `rule_engine.py`. -/
def AMOUNT_MODERATE : ℚ := 200
def AMOUNT_HIGH : ℚ := 1000
def AMOUNT_VERY_HIGH : ℚ := 3000
def HIGH_VELOCITY_CUTOFF : ℕ := 10
def OFF_HOURS_START : ℤ := 0
def OFF_HOURS_END : ℤ := 5

/-- One row of the enriched transaction table, restricted to the columns the
rule engine reads: `Amount`, `customer_id`, `transaction_time`. -/
structure TxRow where
  Amount : ℚ
  customer_id : String
  transaction_time : ℚ
deriving DecidableEq

/-- The enriched transaction table as the rule engine sees it.
`has_transaction_time` models presence of the optional `transaction_time`
column (`"transaction_time" in df.columns`); when it is `false` the per-row
`transaction_time` values are never read. -/
structure TxTable where
  rows : List TxRow
  has_transaction_time : Bool

/-- `_score_amount` applied to one row.  The source builds a zero series and
then overwrites with masks `≥200 → 0.2`, `≥1000 → 0.4`, `≥3000 → 0.6` in that
order; the last write wins, which the nested `let`s reproduce literally. -/
def _score_amount (a : ℚ) : ℚ :=
  let s0 : ℚ := 0
  let s1 := if AMOUNT_MODERATE ≤ a then 0.2 else s0
  let s2 := if AMOUNT_HIGH ≤ a then 0.4 else s1
  if AMOUNT_VERY_HIGH ≤ a then 0.6 else s2

/-- `df["customer_id"].map(df["customer_id"].value_counts())` for one row:
the number of occurrences of the row's customer identifier in the table. -/
def customerFreq (t : TxTable) (c : String) : ℕ :=
  (t.rows.map TxRow.customer_id).count c

/-- `_score_customer_velocity` applied to one row. -/
def _score_customer_velocity (t : TxTable) (r : TxRow) : ℚ :=
  if HIGH_VELOCITY_CUTOFF ≤ customerFreq t r.customer_id then 0.2 else 0

/-- `_score_off_hours` applied to one row: zero series, and when the
`transaction_time` column is present, `0.2` where the hour lies in
`[OFF_HOURS_START, OFF_HOURS_END]`. -/
def _score_off_hours (t : TxTable) (r : TxRow) : ℚ :=
  if t.has_transaction_time then
    if OFF_HOURS_START ≤ hourOf r.transaction_time ∧
        hourOf r.transaction_time ≤ OFF_HOURS_END then 0.2 else 0
  else 0

/-- The summed-and-clipped rule score of one row (the body of
`apply_rules`, pointwise). -/
def rowScore (t : TxTable) (r : TxRow) : ℚ :=
  clip01 (_score_amount r.Amount + _score_customer_velocity t r + _score_off_hours t r)

/-- `apply_rules`: the series of per-row rule scores. -/
def apply_rules (t : TxTable) : List ℚ :=
  t.rows.map (rowScore t)

/-- The raw (unclipped) sum of the three signals, used to state that the
clamp is a no-op. -/
def rawRuleSum (t : TxTable) (r : TxRow) : ℚ :=
  _score_amount r.Amount + _score_customer_velocity t r + _score_off_hours t r

/-- The amount tier exactly as the spec words it (exclusive buckets);
compared against the source's `_score_amount` in the claim about
`apply_rules`. -/
def amountTierSpec (a : ℚ) : ℚ :=
  if a < 200 then 0 else if a < 1000 then 0.2 else if a < 3000 then 0.4 else 0.6

/-- The velocity component as the spec words it. -/
def velocitySpec (freq : ℕ) : ℚ := if 10 ≤ freq then 0.2 else 0

/-- The off-hours component as the spec words it: `0.2` iff the timestamp
column is present and the hour-of-day lies in `[0,5]`. -/
def offHoursSpec (hasCol : Bool) (time : ℚ) : ℚ :=
  if hasCol = true ∧ 0 ≤ hourOf time ∧ hourOf time ≤ 5 then 0.2 else 0

end RuleEngine

namespace RiskEngine

/-- Weights and thresholds from `risk_engine.py`. -/
def RULE_WEIGHT : ℚ := 0.35
def ML_WEIGHT : ℚ := 0.65
def THRESHOLD_HIGH : ℚ := 0.70
def THRESHOLD_MEDIUM : ℚ := 0.40

/-- `_compute_hybrid_score`: the weighted combination, clipped, applied
elementwise to the two aligned series. -/
def _compute_hybrid_score (rule_risk ml_probability : List ℚ) : List ℚ :=
  List.zipWith (fun r m => clip01 (RULE_WEIGHT * r + ML_WEIGHT * m)) rule_risk ml_probability

/-- `np.select([score ≥ 0.70, score ≥ 0.40], ["HIGH", "MEDIUM"], "LOW")` for
one value: conditions are evaluated in order, first match wins. -/
def labelOf (score : ℚ) : String :=
  if THRESHOLD_HIGH ≤ score then "HIGH"
  else if THRESHOLD_MEDIUM ≤ score then "MEDIUM"
  else "LOW"

/-- `_assign_risk_label`: the categorical tier series. -/
def _assign_risk_label (score : List ℚ) : List String :=
  score.map labelOf

end RiskEngine

namespace Governance

/-- A raw input table as the governance layer sees it: named columns and rows
of cells; a cell is `none` for a missing value (`NaN`).  Cell values are
modelled as rationals — at this stage of the pipeline every column of the
raw dataset is numeric. -/
structure DFrame where
  cols : List String
  rows : List (List (Option ℚ))
deriving DecidableEq

/-- Value of column `c` in row `r` under the column list `cols`
(`none` when the column is absent or the cell is missing). -/
def getCell (cols : List String) (r : List (Option ℚ)) (c : String) : Option ℚ :=
  match cols.indexOf? c with
  | some i => r.getD i none
  | none => none

/-- `REQUIRED_COLUMNS` from `governance.py`:
`["Time", "Amount", "Class"] + [f"V{i}" for i in range(1, 29)]`. -/
def REQUIRED_COLUMNS : List String :=
  ["Time", "Amount", "Class"] ++ (List.range 28).map (fun i => "V" ++ toString (i + 1))

def AMOUNT_CEILING : ℚ := 50000

/-- `_validate_schema`: the list of required columns absent from the frame. -/
def missingColumns (df : DFrame) : List String :=
  REQUIRED_COLUMNS.filter (fun c => ¬ c ∈ df.cols)

/-- `df.dropna()`: keep rows with no missing value. -/
def _drop_nulls (df : DFrame) : DFrame :=
  ⟨df.cols, df.rows.filter (fun r => r.all Option.isSome)⟩

/-- Worker for `drop_duplicates`: keep each element not seen before. -/
def dropDupAux {α : Type} [DecidableEq α] (seen : List α) : List α → List α
  | [] => []
  | x :: xs => if x ∈ seen then dropDupAux seen xs else x :: dropDupAux (x :: seen) xs

/-- `df.drop_duplicates()` keeps the first occurrence of each row. -/
def dropDupFirst {α : Type} [DecidableEq α] (l : List α) : List α := dropDupAux [] l

/-- `_remove_duplicates`. -/
def _remove_duplicates (df : DFrame) : DFrame :=
  ⟨df.cols, dropDupFirst df.rows⟩

/-- The row predicate of `_filter_invalid_amounts`:
`(df["Amount"] >= 0.0) & (df["Amount"] <= AMOUNT_CEILING)`; a missing value
compares false, as in pandas. -/
def amountPred (cols : List String) (r : List (Option ℚ)) : Bool :=
  match getCell cols r "Amount" with
  | some v => decide (0 ≤ v) && decide (v ≤ AMOUNT_CEILING)
  | none => false

def _filter_invalid_amounts (df : DFrame) : DFrame :=
  ⟨df.cols, df.rows.filter (amountPred df.cols)⟩

/-- The row predicate of `_filter_invalid_labels`: `df["Class"].isin([0, 1])`. -/
def labelPred (cols : List String) (r : List (Option ℚ)) : Bool :=
  match getCell cols r "Class" with
  | some v => decide (v = 0) || decide (v = 1)
  | none => false

def _filter_invalid_labels (df : DFrame) : DFrame :=
  ⟨df.cols, df.rows.filter (labelPred df.cols)⟩

/-- `clean` (`validate_and_clean` in the spec): schema validation — raising
modelled as `Except.error` — then null-drop, dedup, amount filter, label
filter, in that order. -/
def clean (df : DFrame) : Except String DFrame :=
  if missingColumns df = [] then
    Except.ok (_filter_invalid_labels (_filter_invalid_amounts
      (_remove_duplicates (_drop_nulls df))))
  else
    Except.error "[Governance] Schema violation — missing columns"

end Governance

/-- `str(n).zfill(w)`: decimal rendering left-padded with zeros to width `w`. -/
def zfill (w : ℕ) (n : ℕ) : String :=
  String.mk (List.replicate (w - (toString n).length) '0') ++ toString n

namespace Schema

/-- A cell of the enriched table: the raw dataset's numeric values plus the
synthetic string identifiers added by enrichment.  Timestamps are carried as
numeric seconds since the Unix epoch. -/
inductive PValue
  | num (q : ℚ)
  | str (s : String)
deriving DecidableEq

/-- A generic column-named frame for the enrichment layer. -/
structure RawFrame where
  cols : List String
  rows : List (List PValue)
deriving DecidableEq

/-- Value of column `c` in row `r` under the column list `cols`. -/
def getPCell (cols : List String) (r : List PValue) (c : String) : Option PValue :=
  match cols.indexOf? c with
  | some i => r.get? i
  | none => none

def NUM_MERCHANTS : ℕ := 20
def NUM_CUSTOMERS : ℕ := 200
def RANDOM_SEED : ℕ := 42

/-- `BASE_DATETIME = Timestamp("2024-01-01 00:00:00")`, as seconds since the
Unix epoch. -/
def BASE_DATETIME : ℚ := 1704067200

/-- `[f"MRC_{str(i).zfill(3)}" for i in range(1, NUM_MERCHANTS + 1)]`. -/
def merchantPool : List String :=
  (List.range NUM_MERCHANTS).map (fun i => "MRC_" ++ zfill 3 (i + 1))

/-- `[f"CUST_{str(i).zfill(4)}" for i in range(1, NUM_CUSTOMERS + 1)]`. -/
def customerPool : List String :=
  (List.range NUM_CUSTOMERS).map (fun i => "CUST_" ++ zfill 4 (i + 1))

/-- The seeded pseudo-random generator.  The source uses
`np.random.default_rng(RANDOM_SEED)` (PCG64, external library code); it is
modelled as a fixed deterministic integer stream indexed by seed and draw
position.  The development relies only on the two properties the source
guarantees and the spec states: the draws are a pure function of the seed
and the draw position, and `rng.choice(pool)` selects an element of `pool`. -/
def rngDraw (seed k : ℕ) : ℕ := (1103515245 * (seed + k) + 12345) % 2 ^ 31

/-- `rng.choice(pool)` for draw value `k`. -/
def chooseFrom (pool : List String) (k : ℕ) : String :=
  pool.getD (k % pool.length) ""

/-- The raw `Time` offset of a row (the source feeds `df["Time"]`, a numeric
column, to `pd.to_timedelta`; a missing or non-numeric cell is modelled as
offset `0`, a case the pipeline never produces). -/
def timeOffset (cols : List String) (r : List PValue) : ℚ :=
  match getPCell cols r "Time" with
  | some (PValue.num q) => q
  | _ => 0

/-- `enrich_schema`: append `merchant_id`, `customer_id`, `transaction_time`
to every row.  The single generator is consumed by the merchant draw for all
`n` rows first and the customer draw next, mirroring the two successive
`rng.choice` calls. -/
def enrich_schema (df : RawFrame) : RawFrame :=
  let n := df.rows.length
  { cols := df.cols ++ ["merchant_id", "customer_id", "transaction_time"]
    rows := df.rows.enum.map (fun p =>
      p.2 ++ [PValue.str (chooseFrom merchantPool (rngDraw RANDOM_SEED p.1)),
              PValue.str (chooseFrom customerPool (rngDraw RANDOM_SEED (n + p.1))),
              PValue.num (BASE_DATETIME + timeOffset df.cols p.2)]) }

end Schema

namespace RiskMetrics

/-- One row of the fully scored table, restricted to the columns the metrics
layer reads. -/
structure ScoredRow where
  merchant_id : String
  Amount : ℚ
  Class : ℚ
  final_risk_score : ℚ
  transaction_time : ℚ
deriving DecidableEq

/-- The scored table; `has_transaction_time` models presence of the optional
`transaction_time` column. -/
structure ScoredTable where
  rows : List ScoredRow
  has_transaction_time : Bool

/-- One row of the `merchant_ranking` output. -/
structure MerchantAgg where
  merchant_id : String
  total_transactions : ℕ
  avg_risk : ℚ
  fraud_count : ℚ
  avg_amount : ℚ
  fraud_rate : ℚ
deriving DecidableEq

/-- The distinct group keys in ascending order, as produced by
`df.groupby(key)` (pandas sorts group keys). -/
def sortedKeys {α : Type} [LinearOrder α] [DecidableEq α] (l : List α) : List α :=
  List.insertionSort (fun a b => a ≤ b) l.dedup

/-- The rows of one merchant's group. -/
def merchantGroup (t : ScoredTable) (m : String) : List ScoredRow :=
  t.rows.filter (fun r => r.merchant_id == m)

/-- One row of the `groupby("merchant_id").agg(...)` frame, before the
sort: the group means are the raw, unrounded values, and `fraud_rate` does
not exist yet — the source derives and rounds it only after sorting. -/
structure MerchantAggRaw where
  merchant_id : String
  total_transactions : ℕ
  avg_risk : ℚ
  fraud_count : ℚ
  avg_amount : ℚ
deriving DecidableEq

/-- The `agg` dictionary of `merchant_ranking` for one merchant group. -/
def mkMerchantAggRaw (t : ScoredTable) (m : String) : MerchantAggRaw :=
  let g := merchantGroup t m
  { merchant_id := m
    total_transactions := g.length
    avg_risk := listMean (g.map ScoredRow.final_risk_score)
    fraud_count := (g.map ScoredRow.Class).sum
    avg_amount := listMean (g.map ScoredRow.Amount) }

/-- The key order of `sort_values("avg_risk", ascending=False)`: the sort
compares the raw (unrounded) group means, since the source rounds only
after sorting.  pandas' default sort kind (`quicksort`) is documented as
not stable, so the relative order of groups whose keys compare equal is
implementation-defined; the embedding uses an insertion sort, and the
theorems about the ranking assert only order properties that hold for
every descending-by-key arrangement, none about the order of equal-keyed
groups. -/
def descRisk (a b : MerchantAggRaw) : Prop := b.avg_risk ≤ a.avg_risk

instance : DecidableRel descRisk :=
  fun a b => decidable_of_iff (b.avg_risk ≤ a.avg_risk) Iff.rfl

/-- The post-sort steps of `merchant_ranking`: derive
`fraud_rate = fraud_count / total_transactions` (rounded to 4 dp) and apply
the display rounding `round({"avg_risk": 4, "avg_amount": 2})`, per row. -/
def finalizeAgg (g : MerchantAggRaw) : MerchantAgg :=
  { merchant_id := g.merchant_id
    total_transactions := g.total_transactions
    avg_risk := roundTo 4 g.avg_risk
    fraud_count := g.fraud_count
    avg_amount := roundTo 2 g.avg_amount
    fraud_rate := roundTo 4 (g.fraud_count / (g.total_transactions : ℚ)) }

/-- `merchant_ranking`: group by `merchant_id`, aggregate, sort by the raw
mean risk descending, then derive `fraud_rate` and round for display. -/
def merchant_ranking (t : ScoredTable) : List MerchantAgg :=
  (List.insertionSort descRisk
    ((sortedKeys (t.rows.map ScoredRow.merchant_id)).map (mkMerchantAggRaw t))).map
    finalizeAgg

/-- The two-merchant table on which the rounding order is observable: the
raw means `0.50004` and `0.500049` are distinct (so every sort kind orders
the groups the same way, `M2` first) but both round to `0.5000` for
display. -/
def tieExample : ScoredTable :=
  ⟨[⟨"M1", 0, 0, 0.50004, 0⟩, ⟨"M2", 0, 0, 0.500049, 0⟩], true⟩

instance : IsTotal MerchantAggRaw descRisk :=
  ⟨fun a b => le_total b.avg_risk a.avg_risk⟩

instance : IsTrans MerchantAggRaw descRisk :=
  ⟨fun _ _ _ hab hbc => le_trans hbc hab⟩

/-- One row of the `daily_risk_trend` output; `date` is the calendar date as
a count of days. -/
structure TrendRow where
  date : ℤ
  avg_risk : ℚ
  fraud_count : ℚ
  transaction_count : ℕ
deriving DecidableEq

/-- The trend result: its column names and its rows. -/
structure TrendFrame where
  cols : List String
  rows : List TrendRow

/-- The rows of one calendar date's group. -/
def dateGroup (t : ScoredTable) (d : ℤ) : List ScoredRow :=
  t.rows.filter (fun r => dateOf r.transaction_time == d)

/-- The aggregate record of one calendar date (with the display rounding of
`avg_risk`). -/
def mkTrendRow (t : ScoredTable) (d : ℤ) : TrendRow :=
  let g := dateGroup t d
  { date := d
    avg_risk := roundTo 4 (listMean (g.map ScoredRow.final_risk_score))
    fraud_count := (g.map ScoredRow.Class).sum
    transaction_count := g.length }

/-- `sort_values("date")`, modelled as a stable sort. -/
def dateAsc (a b : TrendRow) : Prop := a.date ≤ b.date

instance : DecidableRel dateAsc :=
  fun a b => decidable_of_iff (a.date ≤ b.date) Iff.rfl

/-- The fixed column set of the trend result. -/
def trendCols : List String := ["date", "avg_risk", "fraud_count", "transaction_count"]

/-- `daily_risk_trend`: the explicitly empty frame when `transaction_time`
is absent, otherwise group by calendar date, aggregate, sort by date. -/
def daily_risk_trend (t : ScoredTable) : TrendFrame :=
  if t.has_transaction_time then
    { cols := trendCols
      rows := List.insertionSort dateAsc
        ((sortedKeys (t.rows.map (fun r => dateOf r.transaction_time))).map (mkTrendRow t)) }
  else
    { cols := trendCols, rows := [] }

end RiskMetrics

namespace Agent

open RiskMetrics

/-- Python `f"{v:.{nd}f}"`: fixed-point decimal rendering with `nd` places
(ties at the half-ulp round away from even where Python rounds to even; no
claim exercises a tie). -/
def fmtFixed (nd : ℕ) (v : ℚ) : String :=
  let m : ℤ := round (v * 10 ^ nd)
  let sign := if m < 0 then "-" else ""
  let a := m.natAbs
  sign ++ toString (a / 10 ^ nd) ++ "." ++ zfill nd (a % 10 ^ nd)

/-- `_pct`: `f"{value * 100:.2f}%"`. -/
def _pct (value : ℚ) : String := fmtFixed 2 (value * 100) ++ "%"

/-- `_score`: `f"{value:.4f}"`. -/
def _scoreFmt (value : ℚ) : String := fmtFixed 4 value

/-- `_insight_fraud_rate`. -/
def _insight_fraud_rate (fraud_rate : ℚ) : String :=
  if 0.05 < fraud_rate then
    "ALERT: Fraud rate is critically elevated at " ++ _pct fraud_rate ++
      ". Immediate escalation and manual case review are recommended."
  else if 0.01 < fraud_rate then
    "WARNING: Fraud rate is above normal at " ++ _pct fraud_rate ++
      ". Increase monitoring frequency and review flagged merchants."
  else
    "Fraud rate is within acceptable bounds at " ++ _pct fraud_rate ++
      ". No systemic fraud pattern detected."

/-- `_insight_avg_risk`. -/
def _insight_avg_risk (avg_risk : ℚ) : String :=
  if 0.70 < avg_risk then
    "ALERT: Portfolio-wide average risk score is HIGH (" ++ _scoreFmt avg_risk ++
      "). Review top-ranked merchants and consider tightening transaction limits."
  else if 0.40 < avg_risk then
    "WARNING: Portfolio average risk score is MODERATE (" ++ _scoreFmt avg_risk ++
      "). Monitor borderline merchants proactively."
  else
    "Portfolio average risk score is LOW (" ++ _scoreFmt avg_risk ++
      "). System operating within normal risk parameters."

/-- `_insight_top_merchant` (the `:,` thousands separator of the transaction
count is rendered without separators). -/
def _insight_top_merchant (merchant_df : List MerchantAgg) : String :=
  match merchant_df with
  | [] => "No merchant data available for analysis."
  | top :: _ =>
    "Highest-risk merchant: " ++ top.merchant_id ++ " — avg risk score " ++
      _scoreFmt top.avg_risk ++ ", " ++ toString top.total_transactions ++
      " transactions, fraud rate " ++ _pct top.fraud_rate ++ "."

/-- `_insight_risk_trend`: `tail(3)` / `head(3)` means compared at ±10 %.
(`trend_df.empty or len(trend_df) < 2` is `len < 2`.) -/
def _insight_risk_trend (trend_df : List TrendRow) : String :=
  if trend_df.length < 2 then "Insufficient time-series data for trend analysis."
  else
    let recent := listMean ((trend_df.drop (trend_df.length - 3)).map TrendRow.avg_risk)
    let baseline := listMean ((trend_df.take 3).map TrendRow.avg_risk)
    if baseline * 1.10 < recent then
      "WARNING: Risk trend is INCREASING. Recent avg: " ++ _scoreFmt recent ++
        " vs baseline: " ++ _scoreFmt baseline ++
        ". Investigate recent activity spikes and new merchant patterns."
    else if recent < baseline * 0.90 then
      "Risk trend is DECREASING. Recent avg: " ++ _scoreFmt recent ++
        " vs baseline: " ++ _scoreFmt baseline ++
        ". Risk controls appear to be working effectively."
    else
      "Risk trend is STABLE. Recent avg: " ++ _scoreFmt recent ++
        " is consistent with baseline: " ++ _scoreFmt baseline ++ "."

/-- The metrics payload of `compute_all` restricted to the keys
`generate_insights` reads (`fraud_rate`, `avg_risk`, `merchant_ranking`,
`daily_risk_trend`; `compute_all` always populates all of them, so the
`dict.get` defaults are never taken). -/
structure MetricsSnapshot where
  fraud_rate : ℚ
  avg_risk : ℚ
  merchant_ranking : List MerchantAgg
  daily_risk_trend : List TrendRow

/-- `generate_insights`: the four insight strings, in fixed order. -/
def generate_insights (metrics : MetricsSnapshot) : List String :=
  [_insight_fraud_rate metrics.fraud_rate,
   _insight_avg_risk metrics.avg_risk,
   _insight_top_merchant metrics.merchant_ranking,
   _insight_risk_trend metrics.daily_risk_trend]

end Agent

/-! ## Helper lemmas -/

theorem clip01_of_bounds {x : ℚ} (h0 : 0 ≤ x) (h1 : x ≤ 1) : clip01 x = x := by
  unfold clip01
  rw [max_eq_right h0, min_eq_right h1]

theorem clip01_eq_min_of_nonneg {x : ℚ} (h0 : 0 ≤ x) : clip01 x = min 1 x := by
  unfold clip01
  rw [max_eq_right h0]

theorem clip01_mono {x y : ℚ} (h : x ≤ y) : clip01 x ≤ clip01 y :=
  min_le_min le_rfl (max_le_max le_rfl h)

theorem clip01_le_one (x : ℚ) : clip01 x ≤ 1 := min_le_left _ _

namespace RuleEngine

theorem score_amount_cases (a : ℚ) :
    _score_amount a = 0 ∨ _score_amount a = 0.2 ∨ _score_amount a = 0.4 ∨
      _score_amount a = 0.6 := by
  unfold _score_amount AMOUNT_MODERATE AMOUNT_HIGH AMOUNT_VERY_HIGH
  split_ifs <;> norm_num

theorem score_amount_nonneg (a : ℚ) : 0 ≤ _score_amount a := by
  rcases score_amount_cases a with h | h | h | h <;> rw [h] <;> norm_num

theorem score_amount_le (a : ℚ) : _score_amount a ≤ 0.6 := by
  rcases score_amount_cases a with h | h | h | h <;> rw [h] <;> norm_num

theorem score_amount_eq_spec (a : ℚ) : _score_amount a = amountTierSpec a := by
  unfold _score_amount amountTierSpec AMOUNT_MODERATE AMOUNT_HIGH AMOUNT_VERY_HIGH
  dsimp only
  split_ifs <;> linarith

theorem score_amount_mono {a a' : ℚ} (h : a ≤ a') : _score_amount a ≤ _score_amount a' := by
  unfold _score_amount AMOUNT_MODERATE AMOUNT_HIGH AMOUNT_VERY_HIGH
  dsimp only
  split_ifs <;> linarith

theorem score_velocity_cases (t : TxTable) (r : TxRow) :
    _score_customer_velocity t r = 0 ∨ _score_customer_velocity t r = 0.2 := by
  unfold _score_customer_velocity
  split_ifs <;> norm_num

theorem score_velocity_eq_spec (t : TxTable) (r : TxRow) :
    _score_customer_velocity t r = velocitySpec (customerFreq t r.customer_id) := rfl

theorem score_off_hours_cases (t : TxTable) (r : TxRow) :
    _score_off_hours t r = 0 ∨ _score_off_hours t r = 0.2 := by
  unfold _score_off_hours
  split_ifs <;> norm_num

theorem score_off_hours_eq_spec (t : TxTable) (r : TxRow) :
    _score_off_hours t r = offHoursSpec t.has_transaction_time r.transaction_time := by
  unfold _score_off_hours offHoursSpec OFF_HOURS_START OFF_HOURS_END
  cases h : t.has_transaction_time <;> simp [h]

theorem rawRuleSum_nonneg (t : TxTable) (r : TxRow) : 0 ≤ rawRuleSum t r := by
  unfold rawRuleSum
  have h1 := score_amount_nonneg r.Amount
  rcases score_velocity_cases t r with h2 | h2 <;>
    rcases score_off_hours_cases t r with h3 | h3 <;> rw [h2, h3] <;> linarith

theorem rawRuleSum_le_one (t : TxTable) (r : TxRow) : rawRuleSum t r ≤ 1 := by
  unfold rawRuleSum
  have h1 := score_amount_le r.Amount
  rcases score_velocity_cases t r with h2 | h2 <;>
    rcases score_off_hours_cases t r with h3 | h3 <;> rw [h2, h3] <;> linarith

theorem rowScore_eq_raw (t : TxTable) (r : TxRow) :
    rowScore t r = rawRuleSum t r :=
  clip01_of_bounds (rawRuleSum_nonneg t r) (rawRuleSum_le_one t r)

end RuleEngine

namespace RiskEngine

theorem labelOf_eq_HIGH {x : ℚ} : labelOf x = "HIGH" ↔ 0.70 ≤ x := by
  unfold labelOf THRESHOLD_HIGH THRESHOLD_MEDIUM
  split_ifs with h1 h2
  · exact iff_of_true rfl h1
  · exact iff_of_false (by decide) h1
  · exact iff_of_false (by decide) h1

theorem labelOf_eq_MEDIUM {x : ℚ} : labelOf x = "MEDIUM" ↔ 0.40 ≤ x ∧ x < 0.70 := by
  unfold labelOf THRESHOLD_HIGH THRESHOLD_MEDIUM
  split_ifs with h1 h2
  · exact iff_of_false (by decide) (by rintro ⟨h3, h4⟩; linarith)
  · exact iff_of_true rfl ⟨h2, lt_of_not_le h1⟩
  · exact iff_of_false (by decide) (by rintro ⟨h3, h4⟩; exact h2 h3)

theorem labelOf_eq_LOW {x : ℚ} : labelOf x = "LOW" ↔ x < 0.40 := by
  unfold labelOf THRESHOLD_HIGH THRESHOLD_MEDIUM
  split_ifs with h1 h2
  · exact iff_of_false (by decide) (by intro h3; linarith)
  · exact iff_of_false (by decide) (by intro h3; exact absurd h2 (not_le.2 h3))
  · exact iff_of_true rfl (lt_of_not_le h2)

end RiskEngine

namespace Governance

theorem mem_dropDupAux {α : Type} [DecidableEq α] {y : α} :
    ∀ {l seen : List α}, y ∈ dropDupAux seen l → y ∈ l := by
  intro l
  induction l with
  | nil => intro seen h; simp [dropDupAux] at h
  | cons x xs ih =>
    intro seen h
    rw [dropDupAux] at h
    split_ifs at h with hx
    · exact List.mem_cons_of_mem _ (ih h)
    · rcases List.mem_cons.1 h with h | h
      · exact h ▸ List.mem_cons_self _ _
      · exact List.mem_cons_of_mem _ (ih h)

theorem dropDupAux_not_mem_seen {α : Type} [DecidableEq α] {y : α} :
    ∀ {l seen : List α}, y ∈ dropDupAux seen l → y ∉ seen := by
  intro l
  induction l with
  | nil => intro seen h; simp [dropDupAux] at h
  | cons x xs ih =>
    intro seen h
    rw [dropDupAux] at h
    split_ifs at h with hx
    · exact ih h
    · rcases List.mem_cons.1 h with h | h
      · exact h ▸ (by simpa using hx)
      · intro hy
        exact ih h (List.mem_cons_of_mem _ hy)

theorem dropDupAux_nodup {α : Type} [DecidableEq α] :
    ∀ (l seen : List α), (dropDupAux seen l).Nodup := by
  intro l
  induction l with
  | nil => intro seen; simp [dropDupAux]
  | cons x xs ih =>
    intro seen
    rw [dropDupAux]
    split_ifs with hx
    · exact ih seen
    · refine List.nodup_cons.2 ⟨fun hmem => ?_, ih _⟩
      exact dropDupAux_not_mem_seen hmem (List.mem_cons_self _ _)

theorem dropDupAux_eq_self {α : Type} [DecidableEq α] :
    ∀ {l seen : List α}, l.Nodup → (∀ x ∈ l, x ∉ seen) → dropDupAux seen l = l := by
  intro l
  induction l with
  | nil => intro seen _ _; rfl
  | cons x xs ih =>
    intro seen hnd hseen
    rw [dropDupAux, if_neg (hseen x (List.mem_cons_self _ _))]
    rcases List.nodup_cons.1 hnd with ⟨hx, hxs⟩
    rw [ih hxs]
    intro y hy
    rw [List.mem_cons]
    rintro (rfl | hmem)
    · exact hx hy
    · exact hseen y (List.mem_cons_of_mem _ hy) hmem

theorem mem_dropDupFirst {α : Type} [DecidableEq α] {y : α} {l : List α}
    (h : y ∈ dropDupFirst l) : y ∈ l := mem_dropDupAux h

theorem dropDupFirst_nodup {α : Type} [DecidableEq α] (l : List α) :
    (dropDupFirst l).Nodup := dropDupAux_nodup l []

theorem dropDupFirst_eq_self {α : Type} [DecidableEq α] {l : List α} (h : l.Nodup) :
    dropDupFirst l = l := dropDupAux_eq_self h (by simp)

/-- The `Except.ok` branch of `clean`, with the row pipeline spelled out. -/
theorem clean_eq_ok_of_schema {df : DFrame} (hm : missingColumns df = []) :
    clean df = Except.ok ⟨df.cols,
      List.filter (labelPred df.cols) (List.filter (amountPred df.cols)
        (dropDupFirst (List.filter (fun r => r.all Option.isSome) df.rows)))⟩ := by
  unfold clean
  rw [if_pos hm]
  rfl

end Governance

namespace Schema

theorem chooseFrom_mem {pool : List String} (h : pool ≠ []) (k : ℕ) :
    chooseFrom pool k ∈ pool := by
  unfold chooseFrom
  have hlt : k % pool.length < pool.length := Nat.mod_lt _ (List.length_pos.2 h)
  rw [List.getD_eq_getElem _ _ hlt]
  exact pool.getElem_mem hlt

end Schema

namespace RiskMetrics

theorem sortedKeys_sorted {α : Type} [LinearOrder α] [DecidableEq α] (l : List α) :
    (sortedKeys l).Sorted (fun a b => a ≤ b) :=
  List.sorted_insertionSort _ _

theorem mem_sortedKeys {α : Type} [LinearOrder α] [DecidableEq α] {a : α} {l : List α} :
    a ∈ sortedKeys l ↔ a ∈ l :=
  ((List.perm_insertionSort _ _).mem_iff).trans List.mem_dedup

theorem sortedKeys_nodup {α : Type} [LinearOrder α] [DecidableEq α] (l : List α) :
    (sortedKeys l).Nodup :=
  ((List.perm_insertionSort _ _).nodup_iff).2 (List.nodup_dedup l)

theorem sortedKeys_pairwise_lt {α : Type} [LinearOrder α] [DecidableEq α] (l : List α) :
    (sortedKeys l).Pairwise (fun a b => a < b) := by
  have hs := sortedKeys_sorted l
  have hn := sortedKeys_nodup l
  exact List.Pairwise.imp (fun h => lt_of_le_of_ne h.1 h.2) (hs.and hn)

theorem roundTo_mono {a b : ℚ} (n : ℕ) (h : a ≤ b) : roundTo n a ≤ roundTo n b := by
  unfold roundTo
  have hm : round (a * 10 ^ n) ≤ round (b * 10 ^ n) := by
    rw [round_eq, round_eq]
    apply Int.floor_mono
    have h2 : a * 10 ^ n ≤ b * 10 ^ n :=
      mul_le_mul_of_nonneg_right h (by positivity)
    linarith
  have hc : ((round (a * 10 ^ n) : ℤ) : ℚ) ≤ ((round (b * 10 ^ n) : ℤ) : ℚ) := by
    exact_mod_cast hm
  gcongr

end RiskMetrics

/-! ## Claims -/

section Claims

open RuleEngine RiskEngine Governance RiskMetrics

/-- The rows of `enrich_schema`, unfolded. -/
theorem enrich_rows_eq (df : Schema.RawFrame) :
    (Schema.enrich_schema df).rows = df.rows.enum.map (fun p =>
      p.2 ++ [Schema.PValue.str (Schema.chooseFrom Schema.merchantPool
                (Schema.rngDraw Schema.RANDOM_SEED p.1)),
              Schema.PValue.str (Schema.chooseFrom Schema.customerPool
                (Schema.rngDraw Schema.RANDOM_SEED (df.rows.length + p.1))),
              Schema.PValue.num (Schema.BASE_DATETIME +
                Schema.timeOffset df.cols p.2)]) := rfl

/-- C9: `enrich_schema` appends exactly the three columns `merchant_id`,
`customer_id`, `transaction_time`; every row keeps its original cells as an
unchanged prefix, its merchant identifier is drawn from the pool of 20, its
customer identifier from the pool of 200, and its `transaction_time` equals
the fixed reference instant plus the row's raw `Time` offset in seconds.
The generator is seeded inside the function with the fixed seed, so the
output — in particular the merchant/customer assignment — is a pure
function of the input table: two invocations on the same cleaned input are
definitionally identical. -/
theorem enrich_schema_spec (df : Schema.RawFrame) :
    (Schema.enrich_schema df).cols =
      df.cols ++ ["merchant_id", "customer_id", "transaction_time"] ∧
    (Schema.enrich_schema df).rows.length = df.rows.length ∧
    Schema.merchantPool.length = 20 ∧
    Schema.customerPool.length = 200 ∧
    ∀ i, i < df.rows.length → ∃ mId cId tv,
      (Schema.enrich_schema df).rows.getD i [] = df.rows.getD i [] ++
        [Schema.PValue.str mId, Schema.PValue.str cId, Schema.PValue.num tv] ∧
      mId ∈ Schema.merchantPool ∧ cId ∈ Schema.customerPool ∧
      tv = Schema.BASE_DATETIME + Schema.timeOffset df.cols (df.rows.getD i []) ∧
      ∀ q, Schema.getPCell df.cols (df.rows.getD i []) "Time" =
          some (Schema.PValue.num q) → tv = Schema.BASE_DATETIME + q := by
  have hlen : (Schema.enrich_schema df).rows.length = df.rows.length := by
    rw [enrich_rows_eq, List.length_map, List.enum_length]
  refine ⟨rfl, hlen, by simp [Schema.merchantPool, Schema.NUM_MERCHANTS],
    by simp [Schema.customerPool, Schema.NUM_CUSTOMERS], ?_⟩
  intro i hi
  refine ⟨Schema.chooseFrom Schema.merchantPool (Schema.rngDraw Schema.RANDOM_SEED i),
    Schema.chooseFrom Schema.customerPool
      (Schema.rngDraw Schema.RANDOM_SEED (df.rows.length + i)),
    Schema.BASE_DATETIME + Schema.timeOffset df.cols (df.rows.getD i []),
    ?_, Schema.chooseFrom_mem (by decide) _, Schema.chooseFrom_mem (by decide) _,
    rfl, ?_⟩
  · have hi2 : i < (Schema.enrich_schema df).rows.length := by rw [hlen]; exact hi
    rw [List.getD_eq_getElem _ _ hi2, List.getD_eq_getElem _ _ hi]
    rw [List.getElem_of_eq (enrich_rows_eq df) hi2, List.getElem_map,
      List.getElem_enum]
  · intro q hq
    have ht : Schema.timeOffset df.cols (df.rows.getD i []) = q := by
      unfold Schema.timeOffset
      rw [hq]
    rw [ht]

/-- C9 witness: for a one-row, one-column frame, row 0 is in range and
`enrich_schema_spec` yields the appended identifier/timestamp cells. -/
theorem enrich_schema_spec_witness :
    0 < (⟨["Time"], [[Schema.PValue.num 7]]⟩ : Schema.RawFrame).rows.length ∧
    ∃ mId cId tv,
      (Schema.enrich_schema ⟨["Time"], [[Schema.PValue.num 7]]⟩).rows.getD 0 [] =
        [Schema.PValue.num 7] ++
          [Schema.PValue.str mId, Schema.PValue.str cId, Schema.PValue.num tv] ∧
      mId ∈ Schema.merchantPool ∧ cId ∈ Schema.customerPool ∧
      tv = Schema.BASE_DATETIME + Schema.timeOffset ["Time"] [Schema.PValue.num 7] ∧
      ∀ q, Schema.getPCell ["Time"] [Schema.PValue.num 7] "Time" =
          some (Schema.PValue.num q) → tv = Schema.BASE_DATETIME + q :=
  ⟨by decide,
    (enrich_schema_spec ⟨["Time"], [[Schema.PValue.num 7]]⟩).2.2.2.2 0 (by decide)⟩

/-- C3: `clean` (`validate_and_clean`) fails — with the schema error playing
the spec's `SchemaError` role — if and only if at least one required column
(`Time`, `Amount`, `Class`, `V1`–`V28`) is absent; when all are present it
returns a table (never raises) obtained by dropping, in exactly this order:
rows with any missing value, then exact duplicate rows, then rows with
amount outside `[0, 50000]`, then rows whose label is not in `{0, 1}`. -/
theorem governance_schema_iff_and_order (df : DFrame) :
    ((∃ e, clean df = Except.error e) ↔ ∃ c ∈ REQUIRED_COLUMNS, c ∉ df.cols) ∧
    ∀ u, clean df = Except.ok u →
      u = _filter_invalid_labels (_filter_invalid_amounts
        (_remove_duplicates (_drop_nulls df))) := by
  constructor
  · by_cases hm : missingColumns df = []
    · constructor
      · rintro ⟨e, he⟩
        rw [clean_eq_ok_of_schema hm] at he
        exact absurd he (by simp)
      · rintro ⟨c, hc, hnc⟩
        exfalso
        have hall := List.filter_eq_nil_iff.1 hm c hc
        simp only [decide_eq_true_eq] at hall
        exact hall hnc
    · constructor
      · intro _
        obtain ⟨c, hc⟩ := List.exists_mem_of_ne_nil _ hm
        rcases List.mem_filter.1 hc with ⟨hcr, hcp⟩
        exact ⟨c, hcr, by simpa using hcp⟩
      · intro _
        refine ⟨"[Governance] Schema violation — missing columns", ?_⟩
        unfold clean
        rw [if_neg hm]
  · intro u hu
    by_cases hm : missingColumns df = []
    · rw [clean_eq_ok_of_schema hm] at hu
      exact (Except.ok.inj hu).symm
    · unfold clean at hu
      rw [if_neg hm] at hu
      exact absurd hu (by simp)

/-- C3 witness: a frame holding exactly the required columns and no rows is
accepted, and its cleaned form is the four-stage pipeline output, by
`governance_schema_iff_and_order`. -/
theorem governance_schema_iff_and_order_witness :
    clean ⟨REQUIRED_COLUMNS, []⟩ = Except.ok ⟨REQUIRED_COLUMNS, []⟩ ∧
    (⟨REQUIRED_COLUMNS, []⟩ : DFrame) =
      _filter_invalid_labels (_filter_invalid_amounts
        (_remove_duplicates (_drop_nulls ⟨REQUIRED_COLUMNS, []⟩))) :=
  have hok : clean ⟨REQUIRED_COLUMNS, []⟩ = Except.ok ⟨REQUIRED_COLUMNS, []⟩ := by rfl
  ⟨hok, (governance_schema_iff_and_order ⟨REQUIRED_COLUMNS, []⟩).2 _ hok⟩

/-- C8: `clean` (`validate_and_clean`) is idempotent — applied to its own
output it removes no further rows and returns an identical table. -/
theorem governance_clean_idempotent (df u : DFrame) (h : clean df = Except.ok u) :
    clean u = Except.ok u := by
  by_cases hm : missingColumns df = []
  case neg =>
    unfold clean at h
    rw [if_neg hm] at h
    exact absurd h (by simp)
  rw [clean_eq_ok_of_schema hm] at h
  set rows0 := List.filter (labelPred df.cols) (List.filter (amountPred df.cols)
    (dropDupFirst (List.filter (fun r => r.all Option.isSome) df.rows))) with hr0
  have hu : (⟨df.cols, rows0⟩ : DFrame) = u := Except.ok.inj h
  subst hu
  have h0 : ∀ r ∈ rows0, r.all Option.isSome = true := by
    intro r hr
    rw [hr0] at hr
    have hmem := List.mem_of_mem_filter (List.mem_of_mem_filter hr)
    have hp := List.of_mem_filter (mem_dropDupFirst hmem)
    exact hp
  have h1 : ∀ r ∈ rows0, amountPred df.cols r = true := by
    intro r hr
    rw [hr0] at hr
    exact List.of_mem_filter (List.mem_of_mem_filter hr)
  have h2 : ∀ r ∈ rows0, labelPred df.cols r = true := by
    intro r hr
    rw [hr0] at hr
    exact List.of_mem_filter hr
  have hnd : rows0.Nodup := by
    rw [hr0]
    exact ((dropDupFirst_nodup _).filter _).filter _
  rw [clean_eq_ok_of_schema (show missingColumns ⟨df.cols, rows0⟩ = [] from hm)]
  show Except.ok (⟨df.cols, List.filter (labelPred df.cols)
      (List.filter (amountPred df.cols) (dropDupFirst
        (List.filter (fun r => r.all Option.isSome) rows0)))⟩ : DFrame) =
    Except.ok (⟨df.cols, rows0⟩ : DFrame)
  rw [List.filter_eq_self.2 h0, dropDupFirst_eq_self hnd,
    List.filter_eq_self.2 h1, List.filter_eq_self.2 h2]

/-- C8 witness: a one-row frame with the required columns survives cleaning
unchanged, and re-cleaning it is a no-op by `governance_clean_idempotent`. -/
theorem governance_clean_idempotent_witness :
    clean ⟨REQUIRED_COLUMNS, [[some 0, some 100, some 1] ++ List.replicate 28 (some 0)]⟩ =
      Except.ok ⟨REQUIRED_COLUMNS,
        [[some 0, some 100, some 1] ++ List.replicate 28 (some 0)]⟩ :=
  governance_clean_idempotent
    ⟨REQUIRED_COLUMNS, [[some 0, some 100, some 1] ++ List.replicate 28 (some 0)]⟩
    ⟨REQUIRED_COLUMNS, [[some 0, some 100, some 1] ++ List.replicate 28 (some 0)]⟩
    (by rfl)

/-- C2: For every row of the input table, `apply_rules` returns exactly
`min(1.0, amount_component + velocity_component + off_hours_component)`,
where the amount component is the exclusive tier `0.0 / 0.2 / 0.4 / 0.6` at
thresholds `200 / 1000 / 3000` (each row receiving the highest tier it
qualifies for), the velocity component is `0.2` iff the row's customer
identifier occurs at least 10 times in the table, and the off-hours
component is `0.2` iff the derived timestamp's hour-of-day is in `[0,5]`,
contributing `0.0` for every row when the timestamp column is absent. -/
theorem apply_rules_componentwise (t : TxTable) :
    apply_rules t = t.rows.map (fun r =>
      min 1 (amountTierSpec r.Amount +
        velocitySpec (customerFreq t r.customer_id) +
        offHoursSpec t.has_transaction_time r.transaction_time)) := by
  unfold apply_rules
  refine List.map_congr_left ?_
  intro r _
  calc rowScore t r = clip01 (rawRuleSum t r) := rfl
    _ = min 1 (rawRuleSum t r) := clip01_eq_min_of_nonneg (rawRuleSum_nonneg t r)
    _ = _ := by
        unfold rawRuleSum
        rw [score_amount_eq_spec, score_velocity_eq_spec, score_off_hours_eq_spec]

/-- C7: the `apply_rules` output is monotonically non-decreasing in the
row's amount (customer and timestamp held fixed), monotonically
non-decreasing in the row's customer frequency (the other signals held
fixed), never exceeds `1.0`, and a 15-row table in which one customer makes
every transaction with amount `5000` at hour 3 scores exactly `1.0` on
every row. -/
theorem apply_rules_monotone_bounded :
    (∀ (t : TxTable) (r r' : TxRow), r.customer_id = r'.customer_id →
        r.transaction_time = r'.transaction_time → r.Amount ≤ r'.Amount →
        rowScore t r ≤ rowScore t r') ∧
    (∀ (t t' : TxTable) (r : TxRow),
        t.has_transaction_time = t'.has_transaction_time →
        customerFreq t r.customer_id ≤ customerFreq t' r.customer_id →
        rowScore t r ≤ rowScore t' r) ∧
    (∀ (t : TxTable), ∀ v ∈ apply_rules t, v ≤ 1) ∧
    apply_rules ⟨List.replicate 15 ⟨5000, "CUST_0001", 10800⟩, true⟩ =
      List.replicate 15 1 := by
  refine ⟨?_, ?_, ?_, ?_⟩
  · intro t r r' hc ht ha
    have hv : _score_customer_velocity t r = _score_customer_velocity t r' := by
      unfold _score_customer_velocity
      rw [hc]
    have ho : _score_off_hours t r = _score_off_hours t r' := by
      unfold _score_off_hours
      rw [ht]
    apply clip01_mono
    rw [hv, ho]
    have := score_amount_mono ha
    linarith
  · intro t t' r hhas hf
    have ho : _score_off_hours t r = _score_off_hours t' r := by
      unfold _score_off_hours
      rw [hhas]
    have key : ∀ f f' : ℕ, f ≤ f' →
        (if 10 ≤ f then (0.2 : ℚ) else 0) ≤ (if 10 ≤ f' then (0.2 : ℚ) else 0) := by
      intro f f' hff
      split_ifs with h1 h2
      any_goals norm_num
      omega
    have hvel : _score_customer_velocity t r ≤ _score_customer_velocity t' r := by
      unfold _score_customer_velocity HIGH_VELOCITY_CUTOFF
      exact key _ _ hf
    apply clip01_mono
    rw [ho]
    linarith
  · intro t v hv
    obtain ⟨r, _, rfl⟩ := List.mem_map.1 hv
    exact clip01_le_one _
  · show List.map _ _ = _
    rw [List.map_replicate]
    have hone : rowScore ⟨List.replicate 15 ⟨5000, "CUST_0001", 10800⟩, true⟩
        ⟨5000, "CUST_0001", 10800⟩ = 1 := by
      rw [rowScore_eq_raw]
      unfold rawRuleSum
      have hA : _score_amount (5000 : ℚ) = 0.6 := by
        norm_num [_score_amount, AMOUNT_MODERATE, AMOUNT_HIGH, AMOUNT_VERY_HIGH]
      have hV : _score_customer_velocity
          ⟨List.replicate 15 ⟨5000, "CUST_0001", 10800⟩, true⟩
          ⟨5000, "CUST_0001", 10800⟩ = 0.2 := by
        unfold _score_customer_velocity customerFreq HIGH_VELOCITY_CUTOFF
        rw [List.map_replicate, List.count_replicate_self]
        norm_num
      have hO : _score_off_hours
          ⟨List.replicate 15 ⟨5000, "CUST_0001", 10800⟩, true⟩
          ⟨5000, "CUST_0001", 10800⟩ = 0.2 := by
        unfold _score_off_hours OFF_HOURS_START OFF_HOURS_END
        have hh : hourOf (10800 : ℚ) = 3 := by
          unfold hourOf
          rw [show (10800 : ℚ) / 3600 = 3 by norm_num]
          simp
        simp only [hh]
        norm_num
      rw [hA, hV, hO]
      norm_num
    rw [hone]

/-- C7 witness: for a concrete two-row table the amount-monotonicity
instance, the frequency-monotonicity instance, the bound, and the all-ones
example are obtained from `apply_rules_monotone_bounded`. -/
theorem apply_rules_monotone_bounded_witness :
    rowScore ⟨[⟨100, "c", 0⟩, ⟨300, "c", 0⟩], false⟩ ⟨100, "c", 0⟩ ≤
      rowScore ⟨[⟨100, "c", 0⟩, ⟨300, "c", 0⟩], false⟩ ⟨300, "c", 0⟩ :=
  apply_rules_monotone_bounded.1 ⟨[⟨100, "c", 0⟩, ⟨300, "c", 0⟩], false⟩
    ⟨100, "c", 0⟩ ⟨300, "c", 0⟩ rfl rfl (by norm_num)

/-- C10: every value `apply_rules` returns lies in
`{0, 0.2, 0.4, 0.6, 0.8, 1}`, and for every row the raw sum of the three
signals lies in `[0, 1]`, so the final clamp never changes any value. -/
theorem apply_rules_value_set (t : TxTable) :
    (∀ v ∈ apply_rules t,
        v = 0 ∨ v = 0.2 ∨ v = 0.4 ∨ v = 0.6 ∨ v = 0.8 ∨ v = 1) ∧
    ∀ r ∈ t.rows, 0 ≤ rawRuleSum t r ∧ rawRuleSum t r ≤ 1 ∧
      clip01 (rawRuleSum t r) = rawRuleSum t r := by
  constructor
  · intro v hv
    obtain ⟨r, _, rfl⟩ := List.mem_map.1 hv
    rw [show rowScore t r = rawRuleSum t r from rowScore_eq_raw t r]
    unfold rawRuleSum
    rcases score_amount_cases r.Amount with h1 | h1 | h1 | h1 <;>
      rcases score_velocity_cases t r with h2 | h2 <;>
        rcases score_off_hours_cases t r with h3 | h3 <;>
          rw [h1, h2, h3] <;> norm_num
  · intro r _
    exact ⟨rawRuleSum_nonneg t r, rawRuleSum_le_one t r,
      clip01_of_bounds (rawRuleSum_nonneg t r) (rawRuleSum_le_one t r)⟩

/-- C10 witness: the concrete score `0.2` of a one-row table is in the
value set, by `apply_rules_value_set`. -/
theorem apply_rules_value_set_witness :
    (0.2 : ℚ) ∈ apply_rules ⟨[⟨250, "c", 0⟩], false⟩ ∧
      ((0.2 : ℚ) = 0 ∨ (0.2 : ℚ) = 0.2 ∨ (0.2 : ℚ) = 0.4 ∨ (0.2 : ℚ) = 0.6 ∨
        (0.2 : ℚ) = 0.8 ∨ (0.2 : ℚ) = 1) := by
  have hmem : (0.2 : ℚ) ∈ apply_rules ⟨[⟨250, "c", 0⟩], false⟩ := by
    have hsc : rowScore ⟨[⟨250, "c", 0⟩], false⟩ ⟨250, "c", 0⟩ = 0.2 := by
      rw [rowScore_eq_raw]
      unfold rawRuleSum
      have hA : _score_amount (250 : ℚ) = 0.2 := by
        norm_num [_score_amount, AMOUNT_MODERATE, AMOUNT_HIGH, AMOUNT_VERY_HIGH]
      have hV : _score_customer_velocity ⟨[⟨250, "c", 0⟩], false⟩ ⟨250, "c", 0⟩ = 0 := by
        unfold _score_customer_velocity customerFreq HIGH_VELOCITY_CUTOFF
        norm_num
      have hO : _score_off_hours ⟨[⟨250, "c", 0⟩], false⟩ ⟨250, "c", 0⟩ = 0 := rfl
      rw [hA, hV, hO]
      norm_num
    show (0.2 : ℚ) ∈ List.map _ _
    simp only [List.map_cons, List.map_nil, hsc]
    exact List.mem_singleton.2 rfl
  exact ⟨hmem, (apply_rules_value_set ⟨[⟨250, "c", 0⟩], false⟩).1 0.2 hmem⟩

/-- C1: for input series with values in `[0,1]` the hybrid scorer computes
`final = clip(0.35 * rule + 0.65 * ml, 0, 1)` for each row (the clip being
the identity there), and assigns label `HIGH` exactly when the score is
`≥ 0.70`, `MEDIUM` exactly when it is in `[0.40, 0.70)`, and `LOW` exactly
when it is `< 0.40` — both threshold comparisons inclusive. -/
theorem hybrid_score_and_label (rule_risk ml_probability : List ℚ)
    (hr : ∀ x ∈ rule_risk, 0 ≤ x ∧ x ≤ 1)
    (hm : ∀ x ∈ ml_probability, 0 ≤ x ∧ x ≤ 1)
    (i : ℕ) (hi : i < (_compute_hybrid_score rule_risk ml_probability).length) :
    (_compute_hybrid_score rule_risk ml_probability).getD i 0 =
      clip01 (0.35 * rule_risk.getD i 0 + 0.65 * ml_probability.getD i 0) ∧
    (_compute_hybrid_score rule_risk ml_probability).getD i 0 =
      0.35 * rule_risk.getD i 0 + 0.65 * ml_probability.getD i 0 ∧
    ((_assign_risk_label (_compute_hybrid_score rule_risk ml_probability)).getD i "" = "HIGH"
      ↔ 0.70 ≤ (_compute_hybrid_score rule_risk ml_probability).getD i 0) ∧
    ((_assign_risk_label (_compute_hybrid_score rule_risk ml_probability)).getD i "" = "MEDIUM"
      ↔ 0.40 ≤ (_compute_hybrid_score rule_risk ml_probability).getD i 0 ∧
        (_compute_hybrid_score rule_risk ml_probability).getD i 0 < 0.70) ∧
    ((_assign_risk_label (_compute_hybrid_score rule_risk ml_probability)).getD i "" = "LOW"
      ↔ (_compute_hybrid_score rule_risk ml_probability).getD i 0 < 0.40) := by
  have hi2 := hi
  unfold _compute_hybrid_score at hi2
  rw [List.length_zipWith] at hi2
  have hir : i < rule_risk.length := lt_of_lt_of_le hi2 (min_le_left _ _)
  have him : i < ml_probability.length := lt_of_lt_of_le hi2 (min_le_right _ _)
  have har := hr _ (rule_risk.getElem_mem hir)
  have ham := hm _ (ml_probability.getElem_mem him)
  have hgr : rule_risk.getD i 0 = rule_risk[i] := List.getD_eq_getElem _ _ hir
  have hgm : ml_probability.getD i 0 = ml_probability[i] := List.getD_eq_getElem _ _ him
  have hs : (_compute_hybrid_score rule_risk ml_probability).getD i 0 =
      clip01 (0.35 * rule_risk[i] + 0.65 * ml_probability[i]) := by
    rw [List.getD_eq_getElem _ _ hi]
    unfold _compute_hybrid_score RULE_WEIGHT ML_WEIGHT
    rw [List.getElem_zipWith]
  have hbounds : 0 ≤ 0.35 * rule_risk[i] + 0.65 * ml_probability[i] ∧
      0.35 * rule_risk[i] + 0.65 * ml_probability[i] ≤ 1 := by
    constructor <;> nlinarith [har.1, har.2, ham.1, ham.2]
  have hval : (_compute_hybrid_score rule_risk ml_probability).getD i 0 =
      0.35 * rule_risk[i] + 0.65 * ml_probability[i] := by
    rw [hs, clip01_of_bounds hbounds.1 hbounds.2]
  have hlab : (_assign_risk_label (_compute_hybrid_score rule_risk ml_probability)).getD i "" =
      labelOf ((_compute_hybrid_score rule_risk ml_probability).getD i 0) := by
    unfold _assign_risk_label
    rw [List.getD_eq_getElem _ _ (by simpa using hi), List.getElem_map,
      List.getD_eq_getElem _ _ hi]
  refine ⟨by rw [hs, hgr, hgm], by rw [hval, hgr, hgm], ?_, ?_, ?_⟩
  · rw [hlab]
    exact labelOf_eq_HIGH
  · rw [hlab]
    exact labelOf_eq_MEDIUM
  · rw [hlab]
    exact labelOf_eq_LOW

/-- C1 witness: both hypotheses hold for the one-element series `[1]`,
`[1]`, index `0` is in range, and the clip form of the score follows from
`hybrid_score_and_label`. -/
theorem hybrid_score_and_label_witness :
    (∀ x ∈ [(1 : ℚ)], 0 ≤ x ∧ x ≤ 1) ∧
    0 < (_compute_hybrid_score [(1 : ℚ)] [(1 : ℚ)]).length ∧
    (_compute_hybrid_score [(1 : ℚ)] [(1 : ℚ)]).getD 0 0 =
      clip01 (0.35 * ([(1 : ℚ)]).getD 0 0 + 0.65 * ([(1 : ℚ)]).getD 0 0) :=
  ⟨by decide, by decide,
    (hybrid_score_and_label [1] [1] (by decide) (by decide) 0 (by decide)).1⟩

/-- C4 (amended): `merchant_ranking` returns one row per distinct merchant
identifier of the scored table, carrying that merchant's transaction count,
4-dp-rounded mean final risk score, fraud count, 2-dp-rounded mean amount,
and 4-dp-rounded fraud rate = fraud count / transaction count; the rows are
sorted by the pre-rounding group mean descending, so the displayed
(rounded) mean risk is non-increasing.  The original claim's tie clause —
equal displayed mean risk keeps the original merchant-identifier order — is
dropped: the source rounds after sorting and sorts with pandas' default
non-stable kind, so it is refuted by
`merchant_ranking_tie_order_counterexample`. -/
theorem merchant_ranking_spec (t : ScoredTable) :
    ((merchant_ranking t).map MerchantAgg.merchant_id).Nodup ∧
    (∀ m : String, (∃ g ∈ merchant_ranking t, g.merchant_id = m) ↔
      m ∈ t.rows.map ScoredRow.merchant_id) ∧
    (∀ g ∈ merchant_ranking t,
      g.total_transactions = (merchantGroup t g.merchant_id).length ∧
      g.avg_risk = roundTo 4
        (listMean ((merchantGroup t g.merchant_id).map ScoredRow.final_risk_score)) ∧
      g.fraud_count = ((merchantGroup t g.merchant_id).map ScoredRow.Class).sum ∧
      g.avg_amount = roundTo 2
        (listMean ((merchantGroup t g.merchant_id).map ScoredRow.Amount)) ∧
      g.fraud_rate = roundTo 4 (g.fraud_count / (g.total_transactions : ℚ))) ∧
    (merchant_ranking t).Pairwise (fun a b => b.avg_risk ≤ a.avg_risk) := by
  unfold merchant_ranking
  set keys := sortedKeys (t.rows.map ScoredRow.merchant_id) with hkeys
  set base := keys.map (mkMerchantAggRaw t) with hbase
  have hperm : List.Perm (List.insertionSort descRisk base) base :=
    List.perm_insertionSort _ _
  refine ⟨?_, ?_, ?_, ?_⟩
  · rw [List.map_map]
    refine ((hperm.map (MerchantAgg.merchant_id ∘ finalizeAgg)).nodup_iff).2 ?_
    have hmapid : base.map (MerchantAgg.merchant_id ∘ finalizeAgg) = keys := by
      rw [hbase, List.map_map]
      exact (List.map_congr_left fun a _ => rfl).trans (List.map_id keys)
    rw [hmapid]
    exact sortedKeys_nodup _
  · intro m
    constructor
    · rintro ⟨g, hg, rfl⟩
      obtain ⟨graw, hgr, rfl⟩ := List.mem_map.1 hg
      obtain ⟨k, hk, rfl⟩ := List.mem_map.1 (hperm.subset hgr)
      exact mem_sortedKeys.1 hk
    · intro hm
      refine ⟨finalizeAgg (mkMerchantAggRaw t m), ?_, rfl⟩
      exact List.mem_map_of_mem _
        (hperm.mem_iff.2 (List.mem_map_of_mem _ (mem_sortedKeys.2 hm)))
  · intro g hg
    obtain ⟨graw, hgr, rfl⟩ := List.mem_map.1 hg
    obtain ⟨k, hk, rfl⟩ := List.mem_map.1 (hperm.subset hgr)
    exact ⟨rfl, rfl, rfl, rfl, rfl⟩
  · have hs : List.Sorted descRisk (List.insertionSort descRisk base) :=
      List.sorted_insertionSort _ _
    exact List.pairwise_map.2 (hs.imp (fun h => roundTo_mono 4 h))

/-- C4 counterexample: on `tieExample` the two merchants' raw means are
distinct, so every sort kind puts `M2` (the larger raw mean) first; after
the post-sort display rounding both rows show the same mean risk `0.5000`,
yet they appear in the order `[M2, M1]` — not the original ascending
merchant-identifier order the claim asserts for equal displayed means. -/
theorem merchant_ranking_tie_order_counterexample :
    (merchant_ranking tieExample).map MerchantAgg.merchant_id = ["M2", "M1"] ∧
    (merchant_ranking tieExample).map MerchantAgg.avg_risk = [0.5, 0.5] := by
  have hM1 : (mkMerchantAggRaw tieExample "M1").avg_risk = 0.50004 := by
    show listMean ((merchantGroup tieExample "M1").map ScoredRow.final_risk_score) = _
    rw [show merchantGroup tieExample "M1" =
      [⟨"M1", 0, 0, 0.50004, 0⟩] from rfl]
    norm_num [listMean]
  have hM2 : (mkMerchantAggRaw tieExample "M2").avg_risk = 0.500049 := by
    show listMean ((merchantGroup tieExample "M2").map ScoredRow.final_risk_score) = _
    rw [show merchantGroup tieExample "M2" =
      [⟨"M2", 0, 0, 0.500049, 0⟩] from rfl]
    norm_num [listMean]
  have hkeys : sortedKeys (tieExample.rows.map ScoredRow.merchant_id) = ["M1", "M2"] := by
    have hle : ("M1" : String) ≤ "M2" := by
      rw [String.le_iff_toList_le]
      decide
    show List.insertionSort _ ((["M1", "M2"] : List String).dedup) = _
    rw [show (["M1", "M2"] : List String).dedup = ["M1", "M2"] from by decide]
    simp [List.insertionSort, List.orderedInsert, hle]
  have hnot : ¬ descRisk (mkMerchantAggRaw tieExample "M1")
      (mkMerchantAggRaw tieExample "M2") := by
    unfold descRisk
    rw [hM1, hM2]
    norm_num
  have hrank : merchant_ranking tieExample =
      [finalizeAgg (mkMerchantAggRaw tieExample "M2"),
       finalizeAgg (mkMerchantAggRaw tieExample "M1")] := by
    unfold merchant_ranking
    rw [hkeys]
    simp only [List.map_cons, List.map_nil, List.insertionSort, List.orderedInsert]
    rw [if_neg hnot]
    rfl
  have h05a : roundTo 4 (0.50004 : ℚ) = 0.5 := by
    unfold roundTo
    rw [round_eq]
    rw [show (0.50004 : ℚ) * 10 ^ 4 + 1 / 2 = 5000.9 by norm_num]
    rw [show ⌊(5000.9 : ℚ)⌋ = 5000 from by rw [Int.floor_eq_iff]; norm_num]
    norm_num
  have h05b : roundTo 4 (0.500049 : ℚ) = 0.5 := by
    unfold roundTo
    rw [round_eq]
    rw [show (0.500049 : ℚ) * 10 ^ 4 + 1 / 2 = 5000.99 by norm_num]
    rw [show ⌊(5000.99 : ℚ)⌋ = 5000 from by rw [Int.floor_eq_iff]; norm_num]
    norm_num
  constructor
  · rw [hrank]
    rfl
  · rw [hrank]
    show [roundTo 4 (mkMerchantAggRaw tieExample "M2").avg_risk,
          roundTo 4 (mkMerchantAggRaw tieExample "M1").avg_risk] = [0.5, 0.5]
    rw [hM1, hM2, h05a, h05b]

/-- C4 witness: for a concrete one-row table the membership equivalence of
`merchant_ranking_spec` produces the merchant's ranking row. -/
theorem merchant_ranking_spec_witness :
    "M1" ∈ (⟨[⟨"M1", 100, 1, 1, 0⟩], true⟩ : ScoredTable).rows.map
      ScoredRow.merchant_id ∧
    ∃ g ∈ merchant_ranking ⟨[⟨"M1", 100, 1, 1, 0⟩], true⟩, g.merchant_id = "M1" :=
  ⟨by decide,
    ((merchant_ranking_spec ⟨[⟨"M1", 100, 1, 1, 0⟩], true⟩).2.1 "M1").2 (by decide)⟩

/-- C6: `daily_risk_trend` is total: it always returns a frame with exactly
the columns `date`, `avg_risk`, `fraud_count`, `transaction_count`; with no
`transaction_time` column it returns that frame with zero rows, and with
the column present it returns one row per distinct calendar date carrying
the date's (4-dp rounded) mean risk, fraud count and transaction count,
sorted by date ascending. -/
theorem daily_risk_trend_spec (t : ScoredTable) :
    (daily_risk_trend t).cols = ["date", "avg_risk", "fraud_count", "transaction_count"] ∧
    (t.has_transaction_time = false → (daily_risk_trend t).rows = []) ∧
    (t.has_transaction_time = true →
      (((daily_risk_trend t).rows.map TrendRow.date).Nodup ∧
       (∀ d : ℤ, (∃ p ∈ (daily_risk_trend t).rows, p.date = d) ↔
         d ∈ t.rows.map (fun r => dateOf r.transaction_time)) ∧
       (∀ p ∈ (daily_risk_trend t).rows,
         p.avg_risk = roundTo 4
           (listMean ((dateGroup t p.date).map ScoredRow.final_risk_score)) ∧
         p.fraud_count = ((dateGroup t p.date).map ScoredRow.Class).sum ∧
         p.transaction_count = (dateGroup t p.date).length) ∧
       ((daily_risk_trend t).rows.map TrendRow.date).Pairwise (fun a b => a < b))) := by
  refine ⟨?_, ?_, ?_⟩
  · unfold daily_risk_trend
    split_ifs <;> rfl
  · intro hf
    unfold daily_risk_trend
    rw [if_neg (by rw [hf]; exact Bool.false_ne_true)]
  · intro ht
    have hrows : (daily_risk_trend t).rows =
        (sortedKeys (t.rows.map (fun r => dateOf r.transaction_time))).map (mkTrendRow t) := by
      unfold daily_risk_trend
      rw [if_pos ht]
      show List.insertionSort dateAsc _ = _
      apply List.Sorted.insertionSort_eq
      have hp := sortedKeys_pairwise_lt (t.rows.map (fun r => dateOf r.transaction_time))
      exact List.pairwise_map.2 (hp.imp (fun h => le_of_lt h))
    refine ⟨?_, ?_, ?_, ?_⟩
    · rw [hrows, List.map_map]
      have : (sortedKeys (t.rows.map (fun r => dateOf r.transaction_time))).map
          (TrendRow.date ∘ mkTrendRow t) =
          sortedKeys (t.rows.map (fun r => dateOf r.transaction_time)) :=
        (List.map_congr_left fun a _ => rfl).trans (List.map_id _)
      rw [this]
      exact sortedKeys_nodup _
    · intro d
      rw [hrows]
      constructor
      · rintro ⟨p, hp, rfl⟩
        obtain ⟨k, hk, rfl⟩ := List.mem_map.1 hp
        exact mem_sortedKeys.1 hk
      · intro hd
        exact ⟨mkTrendRow t d, List.mem_map_of_mem _ (mem_sortedKeys.2 hd), rfl⟩
    · intro p hp
      rw [hrows] at hp
      obtain ⟨k, hk, rfl⟩ := List.mem_map.1 hp
      exact ⟨rfl, rfl, rfl⟩
    · rw [hrows, List.map_map]
      have : (sortedKeys (t.rows.map (fun r => dateOf r.transaction_time))).map
          (TrendRow.date ∘ mkTrendRow t) =
          sortedKeys (t.rows.map (fun r => dateOf r.transaction_time)) :=
        (List.map_congr_left fun a _ => rfl).trans (List.map_id _)
      rw [this]
      exact sortedKeys_pairwise_lt _

/-- C6 witness: for a table without the timestamp column,
`daily_risk_trend_spec` yields the fixed column set and zero rows. -/
theorem daily_risk_trend_spec_witness :
    (daily_risk_trend ⟨[], false⟩).cols =
      ["date", "avg_risk", "fraud_count", "transaction_count"] ∧
    (daily_risk_trend ⟨[], false⟩).rows = [] :=
  ⟨(daily_risk_trend_spec ⟨[], false⟩).1,
    (daily_risk_trend_spec ⟨[], false⟩).2.1 rfl⟩

/-- C5: for every metrics snapshot, `generate_insights` returns exactly 4
messages in the fixed order fraud-rate, mean-risk, top-merchant, trend;
and whenever the fraud rate exceeds `0.05` the first message begins with
the prefix `ALERT`. -/
theorem generate_insights_spec (metrics : Agent.MetricsSnapshot) :
    (Agent.generate_insights metrics).length = 4 ∧
    Agent.generate_insights metrics =
      [Agent._insight_fraud_rate metrics.fraud_rate,
       Agent._insight_avg_risk metrics.avg_risk,
       Agent._insight_top_merchant metrics.merchant_ranking,
       Agent._insight_risk_trend metrics.daily_risk_trend] ∧
    (0.05 < metrics.fraud_rate →
      ∃ rest, (Agent.generate_insights metrics).head? = some ("ALERT" ++ rest)) := by
  refine ⟨rfl, rfl, ?_⟩
  intro h
  refine ⟨": Fraud rate is critically elevated at " ++ Agent._pct metrics.fraud_rate ++
    ". Immediate escalation and manual case review are recommended.", ?_⟩
  show some (Agent._insight_fraud_rate metrics.fraud_rate) = _
  unfold Agent._insight_fraud_rate
  rw [if_pos h]
  have hsplit : ("ALERT: Fraud rate is critically elevated at " : String) =
      "ALERT" ++ ": Fraud rate is critically elevated at " := by decide
  rw [hsplit]
  simp only [String.append_assoc]

/-- C5 witness: a snapshot with fraud rate `0.06` satisfies the alert
hypothesis, and `generate_insights_spec` yields the `ALERT`-prefixed head
message. -/
theorem generate_insights_spec_witness :
    ((0.05 : ℚ) < 0.06) ∧
    ∃ rest, (Agent.generate_insights ⟨0.06, 0, [], []⟩).head? =
      some ("ALERT" ++ rest) :=
  ⟨by norm_num, (generate_insights_spec ⟨0.06, 0, [], []⟩).2.2 (by norm_num)⟩

end Claims

end MerchantRisk
